import Mathlib

/-!
# Verification of the cast-normalization engine (`casts.rs`)

Shallow embedding of `src/c2rust-refactor/src/transform/casts.rs`:
the type classifier output (`SimpleTy`), the cast-kind analyzer
(`cast_kind`), the double-cast resolver (`check_double_cast`), the
literal suffix rewriter (`replace_suffix`), the constant evaluator
(`eval_const` with `ConstantValue::as_ty`), and the per-node rewrite
logic of `RemoveRedundantCasts::transform`.

Rust `match` arms with guards fall through to later arms when the guard
fails; that semantics is rendered here with boolean pattern tests and
`if`-chains.
-/

namespace Casts

/-- `SimpleTy` from casts.rs: the classifier's closed tag set.
`Int w s` is a fixed-width integer (`w` bits, `s` = signed), `Size s` a
platform-width integer, `Pointer` any raw pointer / reference /
function pointer, `Other` anything unclassifiable. -/
inductive SimpleTy where
  | Int : ℕ → Bool → SimpleTy
  | Size : Bool → SimpleTy
  | Float32 : SimpleTy
  | Float64 : SimpleTy
  | Pointer : SimpleTy
  | Other : SimpleTy
deriving DecidableEq, Repr

/-- `SimpleTy::is_signed` from casts.rs. -/
def SimpleTy.is_signed : SimpleTy → Bool
  | .Int _ s => s
  | .Size s => s
  | .Float32 => true
  | .Float64 => true
  | _ => false

/-- `CastKind` from casts.rs: the analyzer's output for one cast step. -/
inductive CastKind where
  | Extend : Bool → CastKind
  | Truncate : CastKind
  | SameWidth : CastKind
  | FromPointer : Bool → CastKind
  | ToPointer : Bool → CastKind
  | Unknown : CastKind
deriving DecidableEq, Repr

/-- `cast_kind` from casts.rs, lines 153-196.  Each Rust arm group over a
constructor pair becomes an `if`-chain in the arm order of the source
(guards that fail fall through to the next arm). -/
def cast_kind (from_ty to_ty : SimpleTy) : CastKind :=
  match from_ty, to_ty with
  | .Int fw fs, .Int tw _ =>
      if fw < tw then .Extend fs
      else if fw > tw then .Truncate
      else .SameWidth
  | .Int fw fs, .Size ts =>
      if fw ≤ 16 then .Extend fs
      else if fw ≥ 64 then .Truncate
      else .ToPointer ts
  | .Int fw fs, .Pointer =>
      if fw ≤ 16 then .Extend fs
      else if fw ≥ 64 then .Truncate
      else .ToPointer false
  | .Size fs, .Int tw _ =>
      if tw ≥ 64 then .Extend fs
      else if tw ≤ 16 then .Truncate
      else .FromPointer fs
  | .Pointer, .Int tw _ =>
      if tw ≥ 64 then .Extend false
      else if tw ≤ 16 then .Truncate
      else .FromPointer false
  | .Pointer, .Pointer | .Pointer, .Size _ | .Size _, .Pointer | .Size _, .Size _ =>
      .SameWidth
  | .Float32, .Float32 => .SameWidth
  | .Float32, .Float64 => .Extend true
  | .Float64, .Float32 => .Truncate
  | .Float64, .Float64 => .SameWidth
  | _, _ => .Unknown

/-- `DoubleCastAction` from casts.rs. -/
inductive DoubleCastAction where
  | RemoveBoth : DoubleCastAction
  | RemoveInner : DoubleCastAction
  | KeepBoth : DoubleCastAction
deriving DecidableEq, Repr

/-- Pattern test for the first arm of the `match` in `check_double_cast`:
`(SameWidth, SameWidth) | (Extend(_), Truncate)`. -/
def armRemoveBothPat (inner outer : CastKind) : Bool :=
  match inner, outer with
  | .SameWidth, .SameWidth | .Extend _, .Truncate => true
  | _, _ => false

/-- Pattern-plus-guard test for the second arm of the `match` in
`check_double_cast`: `(Extend(_), Extend(s)) | (SameWidth, Extend(s)) |
(SameWidth, FromPointer(s)) | (SameWidth, ToPointer(s)) if s == e_ty.is_signed()`. -/
def armRemoveInnerPat (inner outer : CastKind) (eSigned : Bool) : Bool :=
  match inner, outer with
  | .Extend _, .Extend s | .SameWidth, .Extend s
  | .SameWidth, .FromPointer s | .SameWidth, .ToPointer s => s == eSigned
  | _, _ => false

/-- Pattern test for the third arm of the `match` in `check_double_cast`:
`(_, SameWidth) | (_, Truncate)`. -/
def armOuterNarrowPat (outer : CastKind) : Bool :=
  match outer with
  | .SameWidth | .Truncate => true
  | _ => false

/-- `check_double_cast` from casts.rs, lines 116-142.  A Rust arm whose
guard fails falls through to the later arms, which is exactly the
`if`-chain below. -/
def check_double_cast (e_ty t1_ty t2_ty : SimpleTy) : DoubleCastAction :=
  let inner_cast := cast_kind e_ty t1_ty
  let outer_cast := cast_kind t1_ty t2_ty
  if armRemoveBothPat inner_cast outer_cast = true ∧ e_ty = t2_ty then
    .RemoveBoth
  else if armRemoveInnerPat inner_cast outer_cast e_ty.is_signed = true then
    .RemoveInner
  else if armOuterNarrowPat outer_cast = true then
    .RemoveInner
  else
    .KeepBoth

/-- Follows the spec's words (§4.3 decision table, quoted by claim C2):
rule 1 gives `RemoveBoth` when (inner, outer) is (SameWidth, SameWidth)
or (Extend(_), Truncate) and additionally source = target; otherwise
rule 2 gives `RemoveInner` when (inner, outer) is (Extend(_), Extend(s))
or (SameWidth, Extend(s)/FromPointer(s)/ToPointer(s)) with `s` the
source type's signedness; otherwise rule 3 gives `RemoveInner` whenever
outer is SameWidth or Truncate; and `KeepBoth` in every remaining case. -/
def resolveSpecTable (s i t : SimpleTy) : DoubleCastAction :=
  let inner := cast_kind s i
  let outer := cast_kind i t
  if ((inner = .SameWidth ∧ outer = .SameWidth) ∨
      ((∃ b, inner = .Extend b) ∧ outer = .Truncate)) ∧ s = t then
    .RemoveBoth
  else if ((∃ b, inner = .Extend b) ∧ outer = .Extend s.is_signed) ∨
          (inner = .SameWidth ∧
            (outer = .Extend s.is_signed ∨ outer = .FromPointer s.is_signed ∨
             outer = .ToPointer s.is_signed)) then
    .RemoveInner
  else if outer = .SameWidth ∨ outer = .Truncate then
    .RemoveInner
  else
    .KeepBoth

/-- C2: `check_double_cast` implements exactly the decision table stated
by the spec: RemoveBoth for (SameWidth, SameWidth) or (Extend(_), Truncate)
when additionally sourceType = targetType; otherwise RemoveInner for
(Extend(_), Extend(s)) or (SameWidth, Extend(s)/FromPointer(s)/ToPointer(s))
with s the source type's signedness; otherwise RemoveInner whenever the
outer kind is SameWidth or Truncate; and KeepBoth in every remaining case. -/
theorem check_double_cast_matches_spec_table (s i t : SimpleTy) :
    check_double_cast s i t = resolveSpecTable s i t := by
  unfold check_double_cast resolveSpecTable
  rcases h1 : cast_kind s i with b1 | _ | _ | b1 | b1 | _ <;>
    rcases h2 : cast_kind i t with b2 | _ | _ | b2 | b2 | _ <;>
      simp only [armRemoveBothPat, armRemoveInnerPat, armOuterNarrowPat] <;>
        (try cases b1) <;> (try cases b2) <;>
          by_cases hst : s = t <;> cases hsg : s.is_signed <;>
            simp_all

/-! ## Runtime value semantics of casts

The bit-level model against which the double-cast table was validated
lives in the crate's test module (`mod tests`), which is not part of the
sources here; the runtime meaning of a cast is therefore modelled from
the spec (§3, §4.2, §8 and the glossary). -/

/-- Reduce an integer to the value a `w`-bit machine integer of the given
signedness holds after a Rust `as` cast: take the low `w` bits, then
reinterpret them under the target signedness (glossary: Truncate
discards high bits, SameWidth reinterprets, Extend preserves value). -/
def normInt (w : ℕ) (signed : Bool) (v : ℤ) : ℤ :=
  if signed then
    (if (2 : ℤ) ^ (w - 1) ≤ v % (2 : ℤ) ^ w then v % (2 : ℤ) ^ w - (2 : ℤ) ^ w
     else v % (2 : ℤ) ^ w)
  else v % (2 : ℤ) ^ w

/-- A value is representable in a `w`-bit integer of the given signedness. -/
def inRange (w : ℕ) (signed : Bool) (v : ℤ) : Prop :=
  if signed then -((2 : ℤ) ^ (w - 1)) ≤ v ∧ v < (2 : ℤ) ^ (w - 1)
  else 0 ≤ v ∧ v < (2 : ℤ) ^ w

instance (w : ℕ) (signed : Bool) (v : ℤ) : Decidable (inRange w signed v) := by
  unfold inRange; infer_instance

/-- Modelled from the spec: runtime values of the classified types.
Integer-like types (`Int`, `Size`, `Pointer`) hold integers.  Float
values are abstract: an `f64` value is either the exact image of an
`f32` value (`Sum.inl`) or a value that is not `f32`-representable
(`Sum.inr`); `f32 → f64` is the injection and `f64 → f32` rounding is
the identity on injected values, which is all the spec guarantees. -/
inductive CVal where
  | intv : ℤ → CVal
  | f32 : ℤ → CVal
  | f64 : ℤ ⊕ ℤ → CVal
deriving DecidableEq, Repr

/-- The machine width of an integer-like `SimpleTy`, given the platform
width `W` (the spec allows `W` = 32 or 64); `none` for float/`Other`. -/
def intWidth (W : ℕ) : SimpleTy → Option ℕ
  | .Int w _ => some w
  | .Size _ => some W
  | .Pointer => some W
  | _ => none

/-- Modelled from the spec: evaluation of a single Rust cast `v as tgt`
between classified types.  Integer-like to integer-like casts truncate
or extend to the target width and reinterpret under the target
signedness; float-to-float casts use the abstract injection/rounding
model; conversions the engine explicitly refuses to reason about
(integer↔float, anything involving `Other`) are undefined (`none`). -/
def castVal (W : ℕ) (src tgt : SimpleTy) (v : CVal) : Option CVal :=
  match intWidth W src, intWidth W tgt, src, tgt, v with
  | some _, some tw, _, _, .intv x => some (.intv (normInt tw tgt.is_signed x))
  | _, _, .Float32, .Float32, .f32 x => some (.f32 x)
  | _, _, .Float32, .Float64, .f32 x => some (.f64 (Sum.inl x))
  | _, _, .Float64, .Float32, .f64 y => some (.f32 (Sum.elim id id y))
  | _, _, .Float64, .Float64, .f64 y => some (.f64 y)
  | _, _, _, _, _ => none

/-- A `CVal` is a valid runtime value of the given `SimpleTy` at platform
width `W`. -/
def validVal (W : ℕ) : SimpleTy → CVal → Prop
  | .Int w s, .intv x => inRange w s x
  | .Size s, .intv x => inRange W s x
  | .Pointer, .intv x => inRange W false x
  | .Float32, .f32 _ => True
  | .Float64, .f64 _ => True
  | _, _ => False

instance (W : ℕ) (t : SimpleTy) (v : CVal) : Decidable (validVal W t v) := by
  cases t <;> cases v <;> simp only [validVal] <;> infer_instance

/-- C1: the double-cast fusion table is NOT sound: for the triple
(source, intermediate, target) = (i32, u32, isize) on a 64-bit platform
the resolver chooses RemoveInner, yet at the representable source value
v = -1 the double cast `(-1 as u32) as isize` evaluates to 4294967295
while the claimed replacement `-1 as isize` evaluates to -1.  The code
thus contradicts its own claim (and the spec), which require every
chosen replacement to be value-preserving. -/
theorem double_cast_fusion_unsound :
    check_double_cast (.Int 32 true) (.Int 32 false) (.Size true) =
      DoubleCastAction.RemoveInner
    ∧ validVal 64 (.Int 32 true) (.intv (-1))
    ∧ (castVal 64 (.Int 32 true) (.Int 32 false) (.intv (-1))).bind
        (castVal 64 (.Int 32 false) (.Size true)) = some (.intv 4294967295)
    ∧ castVal 64 (.Int 32 true) (.Size true) (.intv (-1)) = some (.intv (-1))
    ∧ some (CVal.intv 4294967295) ≠ some (CVal.intv (-1)) := by
  refine ⟨by decide, by decide, by decide, by decide, by decide⟩

/-- C3: `cast_kind` does NOT return `ToPointer(sourceSigned)` for a
fixed-width integer of width strictly between 16 and 64 cast to a
Size/Pointer type: for a Pointer target it returns `ToPointer(false)`
and for a Size target it returns `ToPointer(targetSigned)`, ignoring
the source signedness in both cases. -/
theorem cast_kind_to_pointer_ignores_source_signedness :
    cast_kind (.Int 32 true) .Pointer = .ToPointer false
    ∧ (SimpleTy.Int 32 true).is_signed = true
    ∧ CastKind.ToPointer false ≠ .ToPointer (SimpleTy.Int 32 true).is_signed
    ∧ cast_kind (.Int 32 false) (.Size true) = .ToPointer true
    ∧ (SimpleTy.Int 32 false).is_signed = false
    ∧ CastKind.ToPointer true ≠ .ToPointer (SimpleTy.Int 32 false).is_signed := by
  refine ⟨by decide, by decide, by decide, by decide, by decide, by decide⟩

/-- C4: `cast_kind` is total by construction, and every pairing that the
source does not explicitly enumerate yields `Unknown`: every
integer↔float pairing (fixed-width or platform-width integers, either
direction), every pointer↔float pairing, and every pairing involving
`Other`. -/
theorem cast_kind_unenumerated_pairs_unknown :
    (∀ w s, cast_kind (.Int w s) .Float32 = .Unknown
      ∧ cast_kind (.Int w s) .Float64 = .Unknown
      ∧ cast_kind .Float32 (.Int w s) = .Unknown
      ∧ cast_kind .Float64 (.Int w s) = .Unknown)
    ∧ (∀ s, cast_kind (.Size s) .Float32 = .Unknown
      ∧ cast_kind (.Size s) .Float64 = .Unknown
      ∧ cast_kind .Float32 (.Size s) = .Unknown
      ∧ cast_kind .Float64 (.Size s) = .Unknown)
    ∧ (cast_kind .Pointer .Float32 = .Unknown
      ∧ cast_kind .Pointer .Float64 = .Unknown
      ∧ cast_kind .Float32 .Pointer = .Unknown
      ∧ cast_kind .Float64 .Pointer = .Unknown)
    ∧ (∀ b, cast_kind .Other b = .Unknown ∧ cast_kind b .Other = .Unknown)
    ∧ (∀ a b, ∃! k, cast_kind a b = k) := by
  refine ⟨fun w s => ⟨rfl, rfl, rfl, rfl⟩,
          fun s => ⟨rfl, rfl, rfl, rfl⟩,
          ⟨rfl, rfl, rfl, rfl⟩,
          fun b => ⟨by cases b <;> rfl, by cases b <;> rfl⟩,
          fun a b => ⟨cast_kind a b, rfl, fun k hk => hk.symm⟩⟩

/-! ## The orchestrator: `RemoveRedundantCasts::transform`

The relevant fragment of the rustc AST (`syntax::ast`): integer /
unsigned / float type tokens, literal kinds, and resolved types.  Only
the shapes the transform inspects are modelled; resolved types carry
the information `From<ty::Ty> for SimpleTy`, `replace_suffix` and
`ConstantValue::as_ty` pattern-match on. -/

/-- `IntTy` from `syntax::ast`. -/
inductive IntTy where
  | Isize | I8 | I16 | I32 | I64 | I128
deriving DecidableEq, Repr

/-- `UintTy` from `syntax::ast`. -/
inductive UintTy where
  | Usize | U8 | U16 | U32 | U64 | U128
deriving DecidableEq, Repr

/-- `FloatTy` from `syntax::ast`. -/
inductive FloatTy where
  | F32 | F64
deriving DecidableEq, Repr

/-- `int_ty.bit_width().unwrap()` from the `From<ty::Ty>` impl.  For
`Isize` the source's `bit_width()` is `None` and the `unwrap` would
panic, but that arm is unreachable there because `Isize` is matched
first; the value 0 below is likewise never consulted. -/
def IntTy.bitWidth : IntTy → ℕ
  | .Isize => 0
  | .I8 => 8
  | .I16 => 16
  | .I32 => 32
  | .I64 => 64
  | .I128 => 128

/-- `uint_ty.bit_width().unwrap()`; `Usize` as for `Isize` above. -/
def UintTy.bitWidth : UintTy → ℕ
  | .Usize => 0
  | .U8 => 8
  | .U16 => 16
  | .U32 => 32
  | .U64 => 64
  | .U128 => 128

/-- The width at which the constant evaluator models a signed integer
type: the `as`-chains in `ConstantValue::as_ty` and `eval_const` use
`i16` for `Isize` (the spec's pessimistic 16-bit platform model) and the
exact width otherwise. -/
def modelWidthI : IntTy → ℕ
  | .Isize => 16
  | it => it.bitWidth

/-- The width at which the constant evaluator models an unsigned integer
type (`u16` for `Usize`). -/
def modelWidthU : UintTy → ℕ
  | .Usize => 16
  | ut => ut.bitWidth

/-- `LitIntType` from `syntax::ast`. -/
inductive LitIntType where
  | Signed : IntTy → LitIntType
  | Unsigned : UintTy → LitIntType
  | Unsuffixed : LitIntType
deriving DecidableEq, Repr

/-- `LitKind` from `syntax::ast`, restricted to the kinds the transform
handles; the remaining kinds (byte, char, string, bool) hit the
catch-all `None`/no-rewrite arms of `eval_const` and `replace_suffix`.
An integer literal's payload is its `u128` magnitude; a float literal's
payload is its source text (a symbol). -/
inductive LitKind where
  | Int : ℕ → LitIntType → LitKind
  | Float : String → FloatTy → LitKind
  | FloatUnsuffixed : String → LitKind
deriving DecidableEq, Repr

/-- A resolved static type (`ty::Ty` after `normalize_erasing_regions`),
restricted to the shapes the transform distinguishes: the `TyKind`s
matched by `From<ty::Ty> for SimpleTy`, `replace_suffix` and
`as_ty`, plus a catch-all. -/
inductive RTy where
  | int : IntTy → RTy
  | uint : UintTy → RTy
  | float : FloatTy → RTy
  | rawPtr : RTy
  | ref : RTy
  | fnPtr : RTy
  | otherTy : RTy
deriving DecidableEq, Repr

/-- `From<ty::Ty> for SimpleTy` from casts.rs, lines 222-242. -/
def RTy.toSimple : RTy → SimpleTy
  | .int .Isize => .Size true
  | .uint .Usize => .Size false
  | .int it => .Int it.bitWidth true
  | .uint ut => .Int ut.bitWidth false
  | .float .F32 => .Float32
  | .float .F64 => .Float64
  | .rawPtr => .Pointer
  | .ref => .Pointer
  | .fnPtr => .Pointer
  | .otherTy => .Other

/-- Modelled from the spec: the IEEE floating-point operations used by
the constant evaluator and the literal rewriter (text parsing,
rounding conversions, re-rendering).  The spec's non-goals leave their
bit-level behavior out of scope, so they are abstract parameters: float
values are abstract codes in `ℤ`, parses may fail, and every theorem
below holds for an arbitrary environment. -/
structure FloatEnv where
  parse32 : String → Option ℤ
  parse64 : String → Option ℤ
  neg32 : ℤ → ℤ
  neg64 : ℤ → ℤ
  f32asI : ℕ → ℤ → ℤ
  f32asU : ℕ → ℤ → ℕ
  f64asI : ℕ → ℤ → ℤ
  f64asU : ℕ → ℤ → ℕ
  iAsF32 : ℤ → ℤ
  iAsF64 : ℤ → ℤ
  f32to64 : ℤ → ℤ
  f64to32 : ℤ → ℤ
  render32 : ℤ → String
  render64 : ℤ → String

/-- Reduce an integer to the low `w` bits as an unsigned value, as a Rust
`as`-cast to a `w`-bit unsigned type does. -/
def normUint (w : ℕ) (v : ℤ) : ℕ :=
  (v % ((2 : ℤ) ^ w)).toNat

/-- `ConstantValue` from casts.rs: `Int` is a signed 128-bit value,
`Uint` an unsigned 128-bit value; float payloads are abstract codes. -/
inductive ConstantValue where
  | Int : ℤ → ConstantValue
  | Uint : ℕ → ConstantValue
  | Float32 : ℤ → ConstantValue
  | Float64 : ℤ → ConstantValue
deriving DecidableEq, Repr

/-- `ConstantValue::as_ty` from casts.rs, lines 357-397.  The
`int_matches!` chains (`v as i16 as i128` for `Isize`, `v as i8 as i128`
for `I8`, ...) are truncate-and-reinterpret at the modelled width, i.e.
`normInt`/`normUint`; on the `i128`/`u128` payload domain
`normInt 128`/`normUint 128` is the identity, matching the bare
`v as i128`/`v as u128` arms.  The final `unreachable!("Unexpected Ty")`
panic is modelled as `none`. -/
def as_ty (E : FloatEnv) (v : ConstantValue) (ty : RTy) : Option ConstantValue :=
  match v, ty with
  | .Int x, .int it => some (.Int (normInt (modelWidthI it) true x))
  | .Uint x, .int it => some (.Int (normInt (modelWidthI it) true (x : ℤ)))
  | .Float32 x, .int it => some (.Int (E.f32asI (modelWidthI it) x))
  | .Float64 x, .int it => some (.Int (E.f64asI (modelWidthI it) x))
  | .Int x, .uint ut => some (.Uint (normUint (modelWidthU ut) x))
  | .Uint x, .uint ut => some (.Uint (normUint (modelWidthU ut) (x : ℤ)))
  | .Float32 x, .uint ut => some (.Uint (E.f32asU (modelWidthU ut) x))
  | .Float64 x, .uint ut => some (.Uint (E.f64asU (modelWidthU ut) x))
  | .Int x, .float .F32 => some (.Float32 (E.iAsF32 x))
  | .Int x, .float .F64 => some (.Float64 (E.iAsF64 x))
  | .Uint x, .float .F32 => some (.Float32 (E.iAsF32 (x : ℤ)))
  | .Uint x, .float .F64 => some (.Float64 (E.iAsF64 (x : ℤ)))
  | .Float32 x, .float .F32 => some (.Float32 x)
  | .Float32 x, .float .F64 => some (.Float64 (E.f32to64 x))
  | .Float64 x, .float .F32 => some (.Float32 (E.f64to32 x))
  | .Float64 x, .float .F64 => some (.Float64 x)
  | _, _ => none

/-- The expression tree fragment the transform matches on: casts,
literals, unary negation, and opaque other expressions.  Each literal
or opaque node carries the resolved type the external type oracle
(`cx.adjusted_node_type` + `normalize_erasing_regions`) reports for it;
a cast node's resolved type is its target type. -/
inductive Expr where
  | cast : Expr → RTy → Expr
  | lit : LitKind → RTy → Expr
  | neg : Expr → Expr
  | other : RTy → Expr
deriving DecidableEq, Repr

/-- The external type oracle's answer for a node (spec §6): a cast has
its target type, a negation the type of its operand, and literal/opaque
nodes carry their resolved type. -/
def exprTy : Expr → RTy
  | .cast _ t => t
  | .lit _ t => t
  | .neg e => exprTy e
  | .other t => t

/-- `eval_const` from casts.rs, lines 400-497.  Literal kinds the source
maps to `None` (byte, char, ...) are absent from `LitKind`; the final
`unreachable!("Unexpected ExprKind")` panic is modelled as `none`. -/
def eval_const (E : FloatEnv) : Expr → Option ConstantValue
  | .lit l _ =>
    match l with
    | .Int i .Unsuffixed => some (.Uint i)
    | .Int i (.Signed it) => some (.Int (normInt (modelWidthI it) true (i : ℤ)))
    | .Int i (.Unsigned ut) => some (.Uint (normUint (modelWidthU ut) (i : ℤ)))
    | .Float f .F32 => (E.parse32 f).map ConstantValue.Float32
    | .Float f .F64 => (E.parse64 f).map ConstantValue.Float64
    | .FloatUnsuffixed f => (E.parse64 f).map ConstantValue.Float64
  | .neg ie =>
    match eval_const E ie with
    | none => none
    | some (.Uint i) => if (2 : ℕ) ^ 127 - 1 < i then none else some (.Int (-(i : ℤ)))
    | some (.Int i) => some (.Int (-i))
    | some (.Float32 f) => some (.Float32 (E.neg32 f))
    | some (.Float64 f) => some (.Float64 (E.neg64 f))
  | .cast ie ty =>
    match eval_const E ie with
    | none => none
    | some ic => as_ty E ic ty
  | .other _ => none

/-- `replace_suffix` from casts.rs, lines 244-346, arm for arm.  A
failed guard (magnitude too large) falls through every remaining arm to
the final `None`. -/
def replace_suffix (E : FloatEnv) (l : LitKind) (ty : RTy) : Option LitKind :=
  match l, ty with
  | .Int i _, .int .Isize => if i ≤ 32767 then some (.Int i (.Signed .Isize)) else none
  | .Int i _, .int .I8 => if i ≤ 127 then some (.Int i (.Signed .I8)) else none
  | .Int i _, .int .I16 => if i ≤ 32767 then some (.Int i (.Signed .I16)) else none
  | .Int i _, .int .I32 => if i ≤ 2147483647 then some (.Int i (.Signed .I32)) else none
  | .Int i _, .int .I64 =>
      if i ≤ 9223372036854775807 then some (.Int i (.Signed .I64)) else none
  | .Int i _, .int .I128 =>
      if i ≤ 2 ^ 127 - 1 then some (.Int i (.Signed .I128)) else none
  | .Int i _, .uint .Usize => if i ≤ 65535 then some (.Int i (.Unsigned .Usize)) else none
  | .Int i _, .uint .U8 => if i ≤ 255 then some (.Int i (.Unsigned .U8)) else none
  | .Int i _, .uint .U16 => if i ≤ 65535 then some (.Int i (.Unsigned .U16)) else none
  | .Int i _, .uint .U32 => if i ≤ 4294967295 then some (.Int i (.Unsigned .U32)) else none
  | .Int i _, .uint .U64 =>
      if i ≤ 18446744073709551615 then some (.Int i (.Unsigned .U64)) else none
  | .Int i _, .uint .U128 => some (.Int i (.Unsigned .U128))
  | .Int i _, .float ft => some (.Float (toString i) ft)
  | .Float f .F32, .int it => (E.parse32 f).map fun fv => .Int (E.f32asU 128 fv) (.Signed it)
  | .Float f .F64, .int it => (E.parse64 f).map fun fv => .Int (E.f64asU 128 fv) (.Signed it)
  | .FloatUnsuffixed f, .int it =>
      (E.parse64 f).map fun fv => .Int (E.f64asU 128 fv) (.Signed it)
  | .Float f .F32, .uint ut => (E.parse32 f).map fun fv => .Int (E.f32asU 128 fv) (.Unsigned ut)
  | .Float f .F64, .uint ut => (E.parse64 f).map fun fv => .Int (E.f64asU 128 fv) (.Unsigned ut)
  | .FloatUnsuffixed f, .uint ut =>
      (E.parse64 f).map fun fv => .Int (E.f64asU 128 fv) (.Unsigned ut)
  | .Float f .F32, .float ft => (E.parse32 f).map fun fv => .Float (E.render32 fv) ft
  | .Float f .F64, .float ft => (E.parse64 f).map fun fv => .Float (E.render64 fv) ft
  | .FloatUnsuffixed f, .float ft => (E.parse64 f).map fun fv => .Float (E.render64 fv) ft
  | _, _ => none

/-- The commit test on line 72 (and 89) of casts.rs:
`new_const.is_some() && new_const == ast_const`. -/
def commitOk (newC astC : Option ConstantValue) : Bool :=
  newC.isSome && decide (newC = astC)

/-- The per-node rewrite of `RemoveRedundantCasts::transform`
(casts.rs lines 28-101), applied at one matched `$oe as $ot` node.
The single-cast-equality check (lines 36-39) runs first; then, by the
operand's shape: the double-cast resolution, the literal rewrite, the
negated-literal rewrite, or no change.  The source's
`assert!(it_ty != ot_ty)` holds vacuously here because the oracle's
type for the operand cast `ie as it` is `it` and the first check
already ruled out `it = ot`. -/
def transformNode (E : FloatEnv) (ast : Expr) : Expr :=
  match ast with
  | .cast oe ot =>
    if exprTy oe = ot then oe
    else
      match oe with
      | .cast ie it =>
        match check_double_cast (exprTy ie).toSimple it.toSimple ot.toSimple with
        | .RemoveBoth => ie
        | .RemoveInner => .cast ie ot
        | .KeepBoth => .cast (.cast ie it) ot
      | .lit l lty =>
        match replace_suffix E l ot with
        | some nl =>
          if commitOk (eval_const E (.lit nl ot)) (eval_const E (.cast (.lit l lty) ot)) then
            .lit nl ot
          else .cast (.lit l lty) ot
        | none => .cast (.lit l lty) ot
      | .neg ne =>
        match ne with
        | .lit l lty =>
          match replace_suffix E l ot with
          | some nl =>
            if commitOk (eval_const E (.neg (.lit nl ot)))
                (eval_const E (.cast (.neg (.lit l lty)) ot)) then
              .neg (.lit nl ot)
            else .cast (.neg (.lit l lty)) ot
          | none => .cast (.neg (.lit l lty)) ot
        | _ => .cast (.neg ne) ot
      | .other t' => .cast (.other t') ot
  | e => e

/-- Modelled from the spec: the tree walk (`mut_visit_match_with` lives
in the matcher, outside these sources).  Per spec §4.4/§5 the engine
walks every node once, matches cast-shaped nodes, and inspects the
operand's current shape at decision time, i.e. children are rewritten
before their parent decides. -/
def transform (E : FloatEnv) : Expr → Expr
  | .cast oe ot => transformNode E (.cast (transform E oe) ot)
  | .neg e => .neg (transform E e)
  | .lit l t => .lit l t
  | .other t => .other t

/-- Number of cast nodes in a tree. -/
def castCount : Expr → ℕ
  | .cast e _ => castCount e + 1
  | .neg e => castCount e
  | .lit _ _ => 0
  | .other _ => 0

/-- A concrete float environment for closed computations: every float
parse fails and every conversion is constant.  The expressions below
contain no float literals, so nothing depends on this choice. -/
def E0 : FloatEnv :=
  ⟨fun _ => none, fun _ => none, fun x => x, fun x => x,
   fun _ _ => 0, fun _ _ => 0, fun _ _ => 0, fun _ _ => 0,
   fun _ => 0, fun _ => 0, fun x => x, fun x => x,
   fun _ => "0.0", fun _ => "0.0"⟩

/-! ## Helper lemmas -/

lemma normInt_nat_eq_self (w : ℕ) (i : ℕ) (h : (i : ℤ) < 2 ^ (w - 1)) :
    normInt w true (i : ℤ) = i := by
  unfold normInt
  have h2 : (i : ℤ) < 2 ^ w :=
    lt_of_lt_of_le h (pow_le_pow_right₀ (by norm_num) (Nat.sub_le w 1))
  rw [Int.emod_eq_of_lt (Int.natCast_nonneg i) h2]
  simp [not_le.mpr h]

lemma normUint_nat_eq_self (w : ℕ) (i : ℕ) (h : (i : ℤ) < 2 ^ w) :
    normUint w (i : ℤ) = i := by
  unfold normUint
  rw [Int.emod_eq_of_lt (Int.natCast_nonneg i) h]
  simp

lemma transformNode_same_ty (E : FloatEnv) (oe : Expr) (ot : RTy)
    (h : exprTy oe = ot) : transformNode E (.cast oe ot) = oe := by
  simp only [transformNode]
  rw [if_pos h]

lemma transformNode_double (E : FloatEnv) (ie : Expr) (it ot : RTy)
    (h : ¬ exprTy (Expr.cast ie it) = ot) :
    transformNode E (.cast (.cast ie it) ot) =
      match check_double_cast (exprTy ie).toSimple it.toSimple ot.toSimple with
      | .RemoveBoth => ie
      | .RemoveInner => .cast ie ot
      | .KeepBoth => .cast (.cast ie it) ot := by
  simp only [transformNode]
  rw [if_neg h]

lemma transformNode_lit (E : FloatEnv) (l : LitKind) (lty ot : RTy)
    (h : ¬ exprTy (Expr.lit l lty) = ot) :
    transformNode E (.cast (.lit l lty) ot) =
      match replace_suffix E l ot with
      | some nl =>
          if commitOk (eval_const E (.lit nl ot))
              (eval_const E (.cast (.lit l lty) ot)) then
            .lit nl ot
          else .cast (.lit l lty) ot
      | none => .cast (.lit l lty) ot := by
  simp only [transformNode]
  rw [if_neg h]

lemma transformNode_neg_lit (E : FloatEnv) (l : LitKind) (lty ot : RTy)
    (h : ¬ exprTy (Expr.neg (.lit l lty)) = ot) :
    transformNode E (.cast (.neg (.lit l lty)) ot) =
      match replace_suffix E l ot with
      | some nl =>
          if commitOk (eval_const E (.neg (.lit nl ot)))
              (eval_const E (.cast (.neg (.lit l lty)) ot)) then
            .neg (.lit nl ot)
          else .cast (.neg (.lit l lty)) ot
      | none => .cast (.neg (.lit l lty)) ot := by
  simp only [transformNode]
  rw [if_neg h]

/-- C5: for a matched cast node `e as t`, if the oracle's resolved type
of the operand equals the resolved target type exactly, the whole cast
is replaced by the operand — regardless of the operand's shape, i.e.
before the double-cast, literal, and every other rewrite path is even
considered. -/
theorem single_cast_equality_takes_precedence (E : FloatEnv) (oe : Expr) (ot : RTy)
    (h : exprTy oe = ot) : transformNode E (.cast oe ot) = oe :=
  transformNode_same_ty E oe ot h

/-- Witness for C5 at a concrete input whose operand is itself a cast,
so the double-cast path would also have applied. -/
theorem single_cast_equality_takes_precedence_witness :
    exprTy (Expr.cast (.other (.int .I32)) (.int .I64)) = .int .I64
    ∧ transformNode E0
        (.cast (.cast (.other (.int .I32)) (.int .I64)) (.int .I64)) =
        .cast (.other (.int .I32)) (.int .I64) :=
  ⟨rfl, single_cast_equality_takes_precedence E0 _ _ rfl⟩

/-! ## Literal safety (C6, C7) -/

/-- The integer target types of the literal rewrite. -/
def isIntTarget : RTy → Bool
  | .int _ => true
  | .uint _ => true
  | _ => false

/-- Follows the spec's words (§4.5): the largest literal magnitude
representable in an integer target type under the engine's model — the
exact width for fixed-width targets, the pessimistic 16-bit envelope
for the platform-width targets `isize`/`usize`. -/
def maxLit : RTy → ℕ
  | .int it => 2 ^ (modelWidthI it - 1) - 1
  | .uint ut => 2 ^ modelWidthU ut - 1
  | _ => 0

/-- An integer literal is well formed when its magnitude fits the type
its suffix declares (under the evaluator's 16-bit model of the
platform-width types); an unsuffixed payload is any `u128` value. -/
def litWF (i : ℕ) : LitIntType → Prop
  | .Unsuffixed => i < 2 ^ 128
  | .Signed it => i ≤ 2 ^ (modelWidthI it - 1) - 1
  | .Unsigned ut => i ≤ 2 ^ modelWidthU ut - 1

lemma evalLit_wf (E : FloatEnv) (i : ℕ) (sfx : LitIntType) (lty : RTy)
    (hwf : litWF i sfx) :
    eval_const E (.lit (.Int i sfx) lty) = some (.Uint i)
    ∨ eval_const E (.lit (.Int i sfx) lty) = some (.Int (i : ℤ)) := by
  cases sfx with
  | Unsuffixed => exact Or.inl rfl
  | Signed it =>
    refine Or.inr ?_
    have hw : (i : ℤ) < 2 ^ (modelWidthI it - 1) := by
      have h0 : i ≤ 2 ^ (modelWidthI it - 1) - 1 := hwf
      have h1 : (1 : ℕ) ≤ 2 ^ (modelWidthI it - 1) := Nat.one_le_two_pow
      have : i < 2 ^ (modelWidthI it - 1) := by omega
      exact_mod_cast this
    simp [eval_const, normInt_nat_eq_self _ _ hw]
  | Unsigned ut =>
    refine Or.inl ?_
    have hw : (i : ℤ) < 2 ^ modelWidthU ut := by
      have h0 : i ≤ 2 ^ modelWidthU ut - 1 := hwf
      have h1 : (1 : ℕ) ≤ 2 ^ modelWidthU ut := Nat.one_le_two_pow
      have : i < 2 ^ modelWidthU ut := by omega
      exact_mod_cast this
    simp [eval_const, normUint_nat_eq_self _ _ hw]

lemma as_ty_int_uint_agree (E : FloatEnv) (i : ℕ) (T : RTy) :
    as_ty E (.Int (i : ℤ)) T = as_ty E (.Uint i) T := by
  cases T with
  | float ft => cases ft <;> rfl
  | _ => rfl

lemma eval_const_cast (E : FloatEnv) (ie : Expr) (T : RTy) :
    eval_const E (.cast ie T) =
      match eval_const E ie with
      | none => none
      | some ic => as_ty E ic T := rfl

lemma eval_cast_int_lit (E : FloatEnv) (i : ℕ) (sfx : LitIntType) (lty T : RTy)
    (hwf : litWF i sfx) :
    eval_const E (.cast (.lit (.Int i sfx) lty) T) = as_ty E (.Uint i) T := by
  rcases evalLit_wf E i sfx lty hwf with h | h <;> rw [eval_const_cast, h]
  exact as_ty_int_uint_agree E i T

lemma replace_suffix_int_shape (E : FloatEnv) (i : ℕ) (sfx : LitIntType) (nl : LitKind) :
    (∀ it, replace_suffix E (.Int i sfx) (.int it) = some nl →
      nl = .Int i (.Signed it))
    ∧ (∀ ut, replace_suffix E (.Int i sfx) (.uint ut) = some nl →
      nl = .Int i (.Unsigned ut)) := by
  constructor
  · intro it h
    cases it <;> simp only [replace_suffix] at h <;> split at h <;>
      simp_all
  · intro ut h
    cases ut <;> simp only [replace_suffix] at h <;> try split at h
    all_goals simp_all

/-- C6: for every integer literal magnitude `i` (a `u128` value) and
every integer target type `T`, `replace_suffix` succeeds iff `i` is
representable in `T` under the engine's model (exact width for
fixed-width targets, the spec's 16-bit envelope for `isize`/`usize`);
and whenever it succeeds on a well-formed literal, the rewritten
literal's value under the constant evaluator equals the evaluated value
of the original cast expression. -/
theorem literal_suffix_rewrite_safety (E : FloatEnv) (i : ℕ) (sfx : LitIntType)
    (T : RTy) (hiw : i < 2 ^ 128) (hT : isIntTarget T = true) :
    ((replace_suffix E (.Int i sfx) T).isSome ↔ i ≤ maxLit T)
    ∧ (litWF i sfx → ∀ nl, replace_suffix E (.Int i sfx) T = some nl →
        ∀ lty, eval_const E (.lit nl T) =
          eval_const E (.cast (.lit (.Int i sfx) lty) T)) := by
  constructor
  · cases T with
    | int it =>
      cases it <;>
        simp only [replace_suffix, maxLit, modelWidthI, IntTy.bitWidth] <;>
          split <;> simp_all <;> omega
    | uint ut =>
      cases ut <;>
        simp only [replace_suffix, maxLit, modelWidthU, UintTy.bitWidth] <;>
          try split
      all_goals simp_all <;> omega
    | _ => simp_all [isIntTarget]
  · intro hwf nl hnl lty
    rw [eval_cast_int_lit E i sfx lty T hwf]
    cases T with
    | int it =>
      rw [(replace_suffix_int_shape E i sfx nl).1 it hnl]
      rfl
    | uint ut =>
      rw [(replace_suffix_int_shape E i sfx nl).2 ut hnl]
      rfl
    | _ => simp_all [isIntTarget]

/-- Witness for C6: the unsuffixed literal 200 with target `u8` (200 is
representable, and the rewrite to `200u8` evaluates like `200 as u8`),
plus the failing direction at target `i8` (200 is not representable). -/
theorem literal_suffix_rewrite_safety_witness :
    (200 : ℕ) < 2 ^ 128
    ∧ isIntTarget (.uint .U8) = true
    ∧ ((replace_suffix E0 (.Int 200 .Unsuffixed) (.uint .U8)).isSome ↔
        (200 : ℕ) ≤ maxLit (.uint .U8))
    ∧ eval_const E0 (.lit (.Int 200 (.Unsigned .U8)) (.uint .U8)) =
        eval_const E0 (.cast (.lit (.Int 200 .Unsuffixed) (.uint .U32)) (.uint .U8))
    ∧ ((replace_suffix E0 (.Int 200 .Unsuffixed) (.int .I8)).isSome ↔
        (200 : ℕ) ≤ maxLit (.int .I8)) := by
  refine ⟨by norm_num, rfl, ?_, ?_, ?_⟩
  · exact (literal_suffix_rewrite_safety E0 200 .Unsuffixed (.uint .U8)
      (by norm_num) rfl).1
  · exact (literal_suffix_rewrite_safety E0 200 .Unsuffixed (.uint .U8)
      (by norm_num) rfl).2 (by simp [litWF]) _ rfl (.uint .U32)
  · exact (literal_suffix_rewrite_safety E0 200 .Unsuffixed (.int .I8)
      (by norm_num) rfl).1

/-- C7: rewriting an integer literal to a platform-width integer type
succeeds exactly on the conservative 16-bit envelope — value ≤ 32767
for `isize`, value ≤ 65535 for `usize` — and otherwise declines,
returning no rewrite. -/
theorem platform_width_literal_envelope (E : FloatEnv) (i : ℕ) (sfx : LitIntType) :
    (i ≤ 32767 →
      replace_suffix E (.Int i sfx) (.int .Isize) = some (.Int i (.Signed .Isize)))
    ∧ (32767 < i → replace_suffix E (.Int i sfx) (.int .Isize) = none)
    ∧ (i ≤ 65535 →
      replace_suffix E (.Int i sfx) (.uint .Usize) = some (.Int i (.Unsigned .Usize)))
    ∧ (65535 < i → replace_suffix E (.Int i sfx) (.uint .Usize) = none) := by
  refine ⟨fun h => ?_, fun h => ?_, fun h => ?_, fun h => ?_⟩ <;>
    simp only [replace_suffix] <;> first
      | rw [if_pos h]
      | rw [if_neg (by omega)]

/-- Witness for C7 at the concrete magnitude 40000: declined for
`isize`, accepted for `usize`. -/
theorem platform_width_literal_envelope_witness :
    replace_suffix E0 (.Int 40000 .Unsuffixed) (.int .Isize) = none
    ∧ replace_suffix E0 (.Int 40000 .Unsuffixed) (.uint .Usize) =
        some (.Int 40000 (.Unsigned .Usize)) :=
  ⟨(platform_width_literal_envelope E0 40000 .Unsuffixed).2.1 (by norm_num),
   (platform_width_literal_envelope E0 40000 .Unsuffixed).2.2.1 (by norm_num)⟩

lemma eval_const_neg (E : FloatEnv) (ie : Expr) :
    eval_const E (.neg ie) =
      match eval_const E ie with
      | none => none
      | some (.Uint i) =>
          if (2 : ℕ) ^ 127 - 1 < i then none else some (.Int (-(i : ℤ)))
      | some (.Int i) => some (.Int (-i))
      | some (.Float32 f) => some (.Float32 (E.neg32 f))
      | some (.Float64 f) => some (.Float64 (E.neg64 f)) := rfl

/-- C8: negating an unsigned constant whose magnitude exceeds the
maximum signed 128-bit value (2^127 - 1) evaluates to no result rather
than wrapping, and an absent evaluation result for the rewritten
negated literal makes the commit test fail, leaving the original cast
expression untouched. -/
theorem unsigned_negation_overflow_blocks_rewrite :
    (∀ (E : FloatEnv) (e : Expr) (i : ℕ), eval_const E e = some (.Uint i) →
      2 ^ 127 - 1 < i → eval_const E (.neg e) = none)
    ∧ (∀ (E : FloatEnv) (l : LitKind) (lty ot : RTy) (nl : LitKind),
        lty ≠ ot → replace_suffix E l ot = some nl →
        eval_const E (.neg (.lit nl ot)) = none →
        transformNode E (.cast (.neg (.lit l lty)) ot) =
          .cast (.neg (.lit l lty)) ot) := by
  constructor
  · intro E e i he hi
    rw [eval_const_neg, he]
    show (if (2 : ℕ) ^ 127 - 1 < i then none
          else some (ConstantValue.Int (-(i : ℤ)))) = none
    rw [if_pos hi]
  · intro E l lty ot nl hne hrs hev
    rw [transformNode_neg_lit E l lty ot hne, hrs]
    have hc : commitOk (eval_const E (.neg (.lit nl ot)))
        (eval_const E (.cast (.neg (.lit l lty)) ot)) = false := by
      rw [hev]; rfl
    simp [hc]

set_option maxRecDepth 4000 in
/-- Witness for C8: the unsuffixed literal 2^127 negated; its negation
evaluates to none, and the candidate rewrite of
`-(2^127) as u128` to `-(2^127u128)` is blocked. -/
theorem unsigned_negation_overflow_blocks_rewrite_witness :
    eval_const E0 (.neg (.lit (.Int (2 ^ 127) .Unsuffixed) (.uint .U32))) = none
    ∧ transformNode E0
        (.cast (.neg (.lit (.Int (2 ^ 127) .Unsuffixed) (.uint .U32))) (.uint .U128)) =
        .cast (.neg (.lit (.Int (2 ^ 127) .Unsuffixed) (.uint .U32))) (.uint .U128) :=
  ⟨unsigned_negation_overflow_blocks_rewrite.1 E0 _ (2 ^ 127) rfl (by norm_num),
   unsigned_negation_overflow_blocks_rewrite.2 E0 (.Int (2 ^ 127) .Unsuffixed)
     (.uint .U32) (.uint .U128) (.Int (2 ^ 127) (.Unsigned .U128)) (by decide) rfl
     (unsigned_negation_overflow_blocks_rewrite.1 E0 _ (2 ^ 127) (by decide)
       (by norm_num))⟩

/-! ## Idempotence (C9) -/

/-- A triple cast over an opaque `u8` expression:
`((x as i8) as i32) as u8` with `x : u8`. -/
def t0 : Expr :=
  .cast (.cast (.cast (.other (.uint .U8)) (.int .I8)) (.int .I32)) (.uint .U8)

/-- C9 counterexample: one run of the engine rewrites `t0` to
`(x as i8) as u8` (the inner double cast is kept, the outer pair is
fused by RemoveInner), but a second run then cancels the newly adjacent
pair via RemoveBoth, so running the engine on its own output produces a
further change. -/
theorem transform_not_idempotent :
    transform E0 t0 =
      .cast (.cast (.other (.uint .U8)) (.int .I8)) (.uint .U8)
    ∧ transform E0 (transform E0 t0) = .other (.uint .U8)
    ∧ transform E0 (transform E0 t0) ≠ transform E0 t0 := by
  refine ⟨by decide, by decide, by decide⟩

lemma transformNode_progress (E : FloatEnv) (e : Expr) :
    transformNode E e = e ∨ castCount (transformNode E e) < castCount e := by
  cases e with
  | cast oe ot =>
    by_cases h : exprTy oe = ot
    · right
      rw [transformNode_same_ty E oe ot h]
      simp [castCount]
    · cases oe with
      | cast ie it =>
        rw [transformNode_double E ie it ot h]
        cases check_double_cast (exprTy ie).toSimple it.toSimple ot.toSimple with
        | RemoveBoth =>
          right
          simp only [castCount]
          omega
        | RemoveInner =>
          right
          simp only [castCount]
          omega
        | KeepBoth => exact Or.inl rfl
      | lit l lty =>
        rw [transformNode_lit E l lty ot h]
        cases hrs : replace_suffix E l ot with
        | none => exact Or.inl rfl
        | some nl =>
          cases hcm : commitOk (eval_const E (.lit nl ot))
              (eval_const E (.cast (.lit l lty) ot)) with
          | false =>
            left
            simp [hcm]
          | true =>
            right
            simp [hcm, castCount]
      | neg ne =>
        cases ne with
        | lit l lty =>
          rw [transformNode_neg_lit E l lty ot h]
          cases hrs : replace_suffix E l ot with
          | none => exact Or.inl rfl
          | some nl =>
            cases hcm : commitOk (eval_const E (.neg (.lit nl ot)))
                (eval_const E (.cast (.neg (.lit l lty)) ot)) with
            | false =>
              left
              simp [hcm]
            | true =>
              right
              simp [hcm, castCount]
        | cast ie it =>
          left
          simp only [transformNode]
          rw [if_neg h]
        | neg ne2 =>
          left
          simp only [transformNode]
          rw [if_neg h]
        | other t' =>
          left
          simp only [transformNode]
          rw [if_neg h]
      | other t' =>
        left
        simp only [transformNode]
        rw [if_neg h]
  | lit l t => exact Or.inl rfl
  | neg e => exact Or.inl rfl
  | other t => exact Or.inl rfl

/-- C9 amended: a run of the engine is not always idempotent, but every
run either returns its input unchanged or strictly decreases the number
of cast nodes, so iterating the engine reaches a fixed point after
finitely many runs. -/
theorem transform_progress_or_fixed (E : FloatEnv) (t : Expr) :
    transform E t = t ∨ castCount (transform E t) < castCount t := by
  induction t with
  | cast oe ot ih =>
    show transformNode E (.cast (transform E oe) ot) = .cast oe ot ∨
      castCount (transformNode E (.cast (transform E oe) ot)) <
        castCount (.cast oe ot)
    rcases ih with h | h
    · rw [h]
      exact transformNode_progress E (.cast oe ot)
    · right
      rcases transformNode_progress E (.cast (transform E oe) ot) with h2 | h2
      · rw [h2]
        simp only [castCount]
        omega
      · have h3 : castCount (Expr.cast (transform E oe) ot) =
            castCount (transform E oe) + 1 := rfl
        simp only [castCount]
        omega
  | neg e ih =>
    rcases ih with h | h
    · left
      show Expr.neg (transform E e) = .neg e
      rw [h]
    · right
      show castCount (Expr.neg (transform E e)) < castCount (.neg e)
      simpa [castCount] using h
  | lit l t => exact Or.inl rfl
  | other t => exact Or.inl rfl

/-- C10: the constant evaluator maps every unsuffixed integer literal to
the unsigned tagged value `Uint(i)` regardless of the type the oracle
reports for the node; a value tagged `Int` never equals a value tagged
`Uint`; and the commit test of the literal-rewrite path evaluates to
false on such a tag disagreement, blocking the rewrite. -/
theorem unsuffixed_literal_evals_unsigned :
    (∀ (E : FloatEnv) (i : ℕ) (lty : RTy),
      eval_const E (.lit (.Int i .Unsuffixed) lty) = some (.Uint i))
    ∧ (∀ (a : ℤ) (b : ℕ), ConstantValue.Int a ≠ ConstantValue.Uint b)
    ∧ (∀ (a : ℤ) (b : ℕ),
        commitOk (some (.Int a)) (some (.Uint b)) = false)
    ∧ (∀ (a : ℤ) (b : ℕ),
        commitOk (some (.Uint b)) (some (.Int a)) = false) := by
  refine ⟨fun E i lty => rfl, fun a b => by simp, fun a b => ?_, fun a b => ?_⟩ <;>
    simp [commitOk]

/-! ## Soundness of the spec's version of the table

Supporting development for the C1/C3 verdict: `cast_kind_spec` is
`cast_kind` with the one change the spec prescribes — `ToPointer`
carries the SOURCE type's signedness (§4.2).  The resolver built on it
is proved value-preserving for every classified triple and every
representable value, in the same value model in which the code's
version was shown unsound above; so the spec's table is coherent and
the code's `ToPointer` payload is the slip. -/

/-- Modelled from the spec (§4.2): `cast_kind` with `ToPointer`
carrying the source type's signedness; identical to `cast_kind`
otherwise. -/
def cast_kind_spec (from_ty to_ty : SimpleTy) : CastKind :=
  match from_ty, to_ty with
  | .Int fw fs, .Int tw _ =>
      if fw < tw then .Extend fs
      else if fw > tw then .Truncate
      else .SameWidth
  | .Int fw fs, .Size _ =>
      if fw ≤ 16 then .Extend fs
      else if fw ≥ 64 then .Truncate
      else .ToPointer fs
  | .Int fw fs, .Pointer =>
      if fw ≤ 16 then .Extend fs
      else if fw ≥ 64 then .Truncate
      else .ToPointer fs
  | .Size fs, .Int tw _ =>
      if tw ≥ 64 then .Extend fs
      else if tw ≤ 16 then .Truncate
      else .FromPointer fs
  | .Pointer, .Int tw _ =>
      if tw ≥ 64 then .Extend false
      else if tw ≤ 16 then .Truncate
      else .FromPointer false
  | .Pointer, .Pointer | .Pointer, .Size _ | .Size _, .Pointer | .Size _, .Size _ =>
      .SameWidth
  | .Float32, .Float32 => .SameWidth
  | .Float32, .Float64 => .Extend true
  | .Float64, .Float32 => .Truncate
  | .Float64, .Float64 => .SameWidth
  | _, _ => .Unknown

/-- `check_double_cast` rebuilt on the spec's `cast_kind_spec`. -/
def check_double_cast_spec (e_ty t1_ty t2_ty : SimpleTy) : DoubleCastAction :=
  let inner_cast := cast_kind_spec e_ty t1_ty
  let outer_cast := cast_kind_spec t1_ty t2_ty
  if armRemoveBothPat inner_cast outer_cast = true ∧ e_ty = t2_ty then
    .RemoveBoth
  else if armRemoveInnerPat inner_cast outer_cast e_ty.is_signed = true then
    .RemoveInner
  else if armOuterNarrowPat outer_cast = true then
    .RemoveInner
  else
    .KeepBoth

/-- With the spec's payload, the triple that broke the code's table is
conservatively kept. -/
theorem check_double_cast_spec_keeps_failing_triple :
    check_double_cast_spec (.Int 32 true) (.Int 32 false) (.Size true) = .KeepBoth
    ∧ check_double_cast_spec (.Int 32 false) (.Int 32 true) (.Size false) = .KeepBoth
    ∧ check_double_cast_spec (.Int 32 false) (.Int 32 true) .Pointer = .KeepBoth := by
  refine ⟨by decide, by decide, by decide⟩

/-- A classified type the soundness statement ranges over: positive
fixed widths, and not `Other`. -/
def wfTy : SimpleTy → Prop
  | .Int w _ => 1 ≤ w
  | .Other => False
  | _ => True

lemma armRemoveBothPat_iff (k1 k2 : CastKind) :
    armRemoveBothPat k1 k2 = true ↔
      (k1 = .SameWidth ∧ k2 = .SameWidth) ∨
      ((∃ b, k1 = .Extend b) ∧ k2 = .Truncate) := by
  cases k1 <;> cases k2 <;> simp [armRemoveBothPat]

lemma armRemoveInnerPat_iff (k1 k2 : CastKind) (sg : Bool) :
    armRemoveInnerPat k1 k2 sg = true ↔
      ((∃ b, k1 = .Extend b) ∧ k2 = .Extend sg) ∨
      (k1 = .SameWidth ∧
        (k2 = .Extend sg ∨ k2 = .FromPointer sg ∨ k2 = .ToPointer sg)) := by
  cases k1 <;> cases k2 <;> simp [armRemoveInnerPat] <;> tauto

lemma armOuterNarrowPat_iff (k2 : CastKind) :
    armOuterNarrowPat k2 = true ↔ k2 = .SameWidth ∨ k2 = .Truncate := by
  cases k2 <;> simp [armOuterNarrowPat]

lemma normInt_congr (w : ℕ) (s : Bool) {x y : ℤ}
    (h : x % (2 : ℤ) ^ w = y % (2 : ℤ) ^ w) : normInt w s x = normInt w s y := by
  unfold normInt
  rw [h]

lemma normInt_emod (wi wt : ℕ) (si : Bool) (x : ℤ) (h : wt ≤ wi) :
    normInt wi si x % (2 : ℤ) ^ wt = x % (2 : ℤ) ^ wt := by
  have hdvd : ((2 : ℤ) ^ wt) ∣ ((2 : ℤ) ^ wi) := pow_dvd_pow 2 h
  unfold normInt
  split_ifs with h1 h2
  · rw [Int.sub_emod, Int.emod_emod_of_dvd x hdvd, Int.emod_eq_zero_of_dvd hdvd,
      sub_zero, Int.emod_emod_of_dvd x dvd_rfl]
  · exact Int.emod_emod_of_dvd x hdvd
  · exact Int.emod_emod_of_dvd x hdvd

lemma normInt_normInt (wt wi : ℕ) (st si : Bool) (x : ℤ) (h : wt ≤ wi) :
    normInt wt st (normInt wi si x) = normInt wt st x :=
  normInt_congr wt st (normInt_emod wi wt si x h)

lemma normInt_eq_self (w : ℕ) (s : Bool) (x : ℤ) (hw : 1 ≤ w)
    (h : inRange w s x) : normInt w s x = x := by
  unfold normInt inRange at *
  have hpow : (2 : ℤ) ^ w = 2 ^ (w - 1) * 2 := by
    conv_lhs => rw [show w = (w - 1) + 1 by omega]
    ring
  cases s with
  | false =>
    simp only [if_false, Bool.false_eq_true] at h ⊢
    rw [Int.emod_eq_of_lt h.1 h.2]
  | true =>
    simp only [if_true] at h ⊢
    rcases le_or_lt 0 x with hx | hx
    · have hlt : x < (2 : ℤ) ^ w := by omega
      rw [Int.emod_eq_of_lt hx hlt]
      rw [if_neg (by omega)]
    · have h1 : x % (2 : ℤ) ^ w = x + 2 ^ w := by
        have hself : (x + 2 ^ w * 1) % (2 : ℤ) ^ w = x % 2 ^ w :=
          @Int.add_mul_emod_self_left x ((2 : ℤ) ^ w) 1
        rw [mul_one] at hself
        rw [← hself]
        have hp : (0 : ℤ) < 2 ^ (w - 1) := by positivity
        exact Int.emod_eq_of_lt (by omega) (by omega)
      rw [h1]
      have hp : (0 : ℤ) < 2 ^ (w - 1) := by positivity
      rw [if_pos (by omega)]
      omega

lemma inRange_mono (a b : ℕ) (s : Bool) (x : ℤ) (hab : a ≤ b)
    (h : inRange a s x) : inRange b s x := by
  unfold inRange at *
  have h1 : (2 : ℤ) ^ (a - 1) ≤ 2 ^ (b - 1) :=
    pow_le_pow_right₀ (by norm_num) (by omega)
  have h2 : (2 : ℤ) ^ a ≤ 2 ^ b := pow_le_pow_right₀ (by norm_num) hab
  cases s <;> simp_all <;> omega

lemma cast_kind_spec_SameWidth (W : ℕ) (a b : SimpleTy)
    (h : cast_kind_spec a b = .SameWidth) :
    (∃ wa, intWidth W a = some wa ∧ intWidth W b = some wa)
    ∨ (a = .Float32 ∧ b = .Float32) ∨ (a = .Float64 ∧ b = .Float64) := by
  cases a <;> cases b <;>
    simp only [cast_kind_spec, intWidth] at h ⊢ <;>
      (try split_ifs at h) <;> simp_all <;> omega

lemma cast_kind_spec_Extend (W : ℕ) (hW : W = 32 ∨ W = 64) (a b : SimpleTy)
    (p : Bool) (h : cast_kind_spec a b = .Extend p) :
    (∃ wa wb, intWidth W a = some wa ∧ intWidth W b = some wb ∧ wa ≤ wb
      ∧ p = a.is_signed)
    ∨ (a = .Float32 ∧ b = .Float64 ∧ p = true) := by
  cases a <;> cases b <;>
    simp only [cast_kind_spec, intWidth, SimpleTy.is_signed] at h ⊢ <;>
      (try split_ifs at h) <;> simp_all <;> omega

lemma cast_kind_spec_Truncate (W : ℕ) (hW : W = 32 ∨ W = 64) (a b : SimpleTy)
    (h : cast_kind_spec a b = .Truncate) :
    (∃ wa wb, intWidth W a = some wa ∧ intWidth W b = some wb ∧ wb ≤ wa)
    ∨ (a = .Float64 ∧ b = .Float32) := by
  cases a <;> cases b <;>
    simp only [cast_kind_spec, intWidth] at h ⊢ <;>
      (try split_ifs at h) <;> simp_all <;> omega

lemma cast_kind_spec_FromPointer (W : ℕ) (a b : SimpleTy) (p : Bool)
    (h : cast_kind_spec a b = .FromPointer p) :
    p = a.is_signed ∧ (intWidth W a).isSome ∧ (intWidth W b).isSome := by
  cases a <;> cases b <;>
    simp only [cast_kind_spec, intWidth, SimpleTy.is_signed] at h ⊢ <;>
      (try split_ifs at h) <;> simp_all

lemma cast_kind_spec_ToPointer (W : ℕ) (a b : SimpleTy) (p : Bool)
    (h : cast_kind_spec a b = .ToPointer p) :
    p = a.is_signed ∧ (intWidth W a).isSome ∧ (intWidth W b).isSome := by
  cases a <;> cases b <;>
    simp only [cast_kind_spec, intWidth, SimpleTy.is_signed] at h ⊢ <;>
      (try split_ifs at h) <;> simp_all

lemma validVal_shape (W : ℕ) (a : SimpleTy) (v : CVal)
    (ha : (intWidth W a).isSome = true) (hv : validVal W a v) :
    ∃ x wa, v = .intv x ∧ intWidth W a = some wa ∧ inRange wa a.is_signed x := by
  cases a <;> cases v <;>
    simp_all [validVal, intWidth, SimpleTy.is_signed]

lemma intWidth_pos (W : ℕ) (a : SimpleTy) (wa : ℕ) (hW : W = 32 ∨ W = 64)
    (hwf : wfTy a) (h : intWidth W a = some wa) : 1 ≤ wa := by
  cases a <;> simp_all [intWidth, wfTy] <;> omega

lemma castVal_intlike (W : ℕ) (s t : SimpleTy) (ws wt : ℕ) (x : ℤ)
    (hs : intWidth W s = some ws) (ht : intWidth W t = some wt) :
    castVal W s t (.intv x) = some (.intv (normInt wt t.is_signed x)) := by
  cases s <;> cases t <;>
    simp_all [castVal, intWidth, SimpleTy.is_signed]

lemma castVal_src_irrel (W : ℕ) (s i : SimpleTy)
    (hs : (intWidth W s).isSome = true) (hi : (intWidth W i).isSome = true)
    (t : SimpleTy) (v : CVal) : castVal W i t v = castVal W s t v := by
  cases s <;> cases i <;> simp_all [intWidth] <;>
    cases t <;> cases v <;> rfl

lemma castVal_float_src_int_none (W : ℕ) (s t : SimpleTy) (v : CVal)
    (hs : intWidth W s = none) (ht : (intWidth W t).isSome = true) :
    castVal W s t v = none := by
  cases s <;> cases t <;> simp_all [intWidth] <;>
    cases v <;> rfl

lemma castVal_int_src_float_none (W : ℕ) (s t : SimpleTy) (v : CVal)
    (hs : (intWidth W s).isSome = true) (ht : intWidth W t = none) :
    castVal W s t v = none := by
  cases s <;> cases t <;> simp_all [intWidth] <;>
    cases v <;> rfl

lemma inner_preserves (W : ℕ) (hW : W = 32 ∨ W = 64) (s i : SimpleTy)
    (hwfi : wfTy i)
    (hk : cast_kind_spec s i = .SameWidth ∨ ∃ b, cast_kind_spec s i = .Extend b)
    (hsgn : i.is_signed = s.is_signed)
    (hint_i : (intWidth W i).isSome = true)
    (v : CVal) (hv : validVal W s v) :
    castVal W s i v = some v := by
  have hwid : ∃ ws wi, intWidth W s = some ws ∧ intWidth W i = some wi ∧ ws ≤ wi := by
    rcases hk with hk | ⟨b, hk⟩
    · rcases cast_kind_spec_SameWidth W s i hk with ⟨wa, h1, h2⟩ | ⟨_, h2⟩ | ⟨_, h2⟩
      · exact ⟨wa, wa, h1, h2, le_refl wa⟩
      · rw [h2] at hint_i; simp [intWidth] at hint_i
      · rw [h2] at hint_i; simp [intWidth] at hint_i
    · rcases cast_kind_spec_Extend W hW s i b hk with ⟨wa, wb, h1, h2, h3, _⟩ | ⟨_, h2, _⟩
      · exact ⟨wa, wb, h1, h2, h3⟩
      · rw [h2] at hint_i; simp [intWidth] at hint_i
  rcases hwid with ⟨ws, wi, hs, hi, hwle⟩
  rcases validVal_shape W s v (by rw [hs]; rfl) hv with ⟨x, wa, hvx, hwa, hr⟩
  rw [hwa] at hs
  injection hs with hs
  subst hs hvx
  rw [castVal_intlike W s i wa wi x hwa hi, hsgn]
  rw [normInt_eq_self wi s.is_signed x
    (intWidth_pos W i wi hW hwfi hi)
    (inRange_mono wa wi s.is_signed x hwle hr)]

lemma check_spec_cases (s i t : SimpleTy) :
    (check_double_cast_spec s i t = .RemoveBoth ↔
      (armRemoveBothPat (cast_kind_spec s i) (cast_kind_spec i t) = true ∧ s = t))
    ∧ (check_double_cast_spec s i t = .RemoveInner ↔
      (¬(armRemoveBothPat (cast_kind_spec s i) (cast_kind_spec i t) = true ∧ s = t) ∧
        (armRemoveInnerPat (cast_kind_spec s i) (cast_kind_spec i t) s.is_signed = true
         ∨ armOuterNarrowPat (cast_kind_spec i t) = true))) := by
  constructor
  · simp only [check_double_cast_spec]
    split_ifs with h1 h2 h3
    · exact ⟨fun _ => h1, fun _ => rfl⟩
    · exact ⟨fun h => absurd h (by simp), fun hc => absurd hc h1⟩
    · exact ⟨fun h => absurd h (by simp), fun hc => absurd hc h1⟩
    · exact ⟨fun h => absurd h (by simp), fun hc => absurd hc h1⟩
  · simp only [check_double_cast_spec]
    split_ifs with h1 h2 h3
    · exact ⟨fun h => absurd h (by simp), fun hc => absurd h1 hc.1⟩
    · exact ⟨fun _ => ⟨h1, Or.inl h2⟩, fun _ => rfl⟩
    · exact ⟨fun _ => ⟨h1, Or.inr h3⟩, fun _ => rfl⟩
    · refine ⟨fun h => absurd h (by simp), fun hc => ?_⟩
      rcases hc.2 with hx | hx
      · exact absurd hx h2
      · exact absurd hx h3

lemma src_intlike_of_inner (W : ℕ) (hW : W = 32 ∨ W = 64) (s i : SimpleTy)
    (hk : cast_kind_spec s i = .SameWidth ∨ ∃ b, cast_kind_spec s i = .Extend b)
    (hi_int : (intWidth W i).isSome = true) : (intWidth W s).isSome = true := by
  rcases hk with hk | ⟨b, hk⟩
  · rcases cast_kind_spec_SameWidth W s i hk with ⟨wa, h1, _⟩ | ⟨_, h2⟩ | ⟨_, h2⟩
    · rw [h1]; rfl
    · rw [h2] at hi_int; simp [intWidth] at hi_int
    · rw [h2] at hi_int; simp [intWidth] at hi_int
  · rcases cast_kind_spec_Extend W hW s i b hk with ⟨wa, wb, h1, _, _, _⟩ | ⟨_, h2, _⟩
    · rw [h1]; rfl
    · rw [h2] at hi_int; simp [intWidth] at hi_int

/-- Soundness of the spec's table: in the value model above, for every
classified triple and every representable value of the source type,
`RemoveBoth` means the double cast evaluates back to the value itself
and `RemoveInner` means it evaluates exactly like the direct cast
(`KeepBoth` keeps the expression unchanged, so it is trivially sound).
This is the property C1 demands, and it holds for the table built on
the spec's `ToPointer(sourceSigned)` payload — whereas the code's
payload breaks it, as shown above at the failing triple. -/
theorem check_double_cast_spec_sound (W : ℕ) (hW : W = 32 ∨ W = 64)
    (s i t : SimpleTy) (hs : wfTy s) (hi : wfTy i) (ht : wfTy t)
    (v : CVal) (hv : validVal W s v) :
    (check_double_cast_spec s i t = .RemoveBoth →
      (castVal W s i v).bind (castVal W i t) = some v)
    ∧ (check_double_cast_spec s i t = .RemoveInner →
      (castVal W s i v).bind (castVal W i t) = castVal W s t v) := by
  constructor
  · intro hact
    obtain ⟨hpat, hst⟩ := (check_spec_cases s i t).1.mp hact
    subst hst
    rcases (armRemoveBothPat_iff _ _).mp hpat with ⟨hk1, hk2⟩ | ⟨⟨b, hk1⟩, hk2⟩
    · rcases cast_kind_spec_SameWidth W s i hk1 with ⟨wa, hsw, hiw⟩ | ⟨h1, h2⟩ | ⟨h1, h2⟩
      · rcases validVal_shape W s v (by rw [hsw]; rfl) hv with ⟨x, wa', hvx, hwa', hr⟩
        rw [hsw] at hwa'
        injection hwa' with he
        subst he
        subst hvx
        rw [castVal_intlike W s i wa wa x hsw hiw]
        simp only [Option.some_bind]
        rw [castVal_intlike W i s wa wa _ hiw hsw]
        rw [normInt_normInt wa wa s.is_signed i.is_signed x (le_refl wa)]
        rw [normInt_eq_self wa s.is_signed x (intWidth_pos W s wa hW hs hsw) hr]
      · subst h1; subst h2
        cases v with
        | f32 x => rfl
        | intv x => exact absurd hv (by simp [validVal])
        | f64 y => exact absurd hv (by simp [validVal])
      · subst h1; subst h2
        cases v with
        | f64 y => rfl
        | intv x => exact absurd hv (by simp [validVal])
        | f32 x => exact absurd hv (by simp [validVal])
    · rcases cast_kind_spec_Extend W hW s i b hk1 with
        ⟨ws', wi', hsw, hiw, hle, _⟩ | ⟨h1, h2, _⟩
      · rcases validVal_shape W s v (by rw [hsw]; rfl) hv with ⟨x, wa', hvx, hwa', hr⟩
        rw [hsw] at hwa'
        injection hwa' with he
        subst he
        subst hvx
        rw [castVal_intlike W s i ws' wi' x hsw hiw]
        simp only [Option.some_bind]
        rw [castVal_intlike W i s wi' ws' _ hiw hsw]
        rw [normInt_normInt ws' wi' s.is_signed i.is_signed x hle]
        rw [normInt_eq_self ws' s.is_signed x (intWidth_pos W s ws' hW hs hsw) hr]
      · subst h1; subst h2
        cases v with
        | f32 x => rfl
        | intv x => exact absurd hv (by simp [validVal])
        | f64 y => exact absurd hv (by simp [validVal])
  · intro hact
    obtain ⟨hnot1, hOr⟩ := (check_spec_cases s i t).2.mp hact
    rcases hOr with h2 | h3
    · have hk1 : cast_kind_spec s i = .SameWidth ∨ ∃ b, cast_kind_spec s i = .Extend b := by
        rcases (armRemoveInnerPat_iff _ _ _).mp h2 with ⟨⟨b, hk⟩, _⟩ | ⟨hk, _⟩
        · exact Or.inr ⟨b, hk⟩
        · exact Or.inl hk
      have houter : cast_kind_spec i t = .Extend s.is_signed
          ∨ cast_kind_spec i t = .FromPointer s.is_signed
          ∨ cast_kind_spec i t = .ToPointer s.is_signed := by
        rcases (armRemoveInnerPat_iff _ _ _).mp h2 with ⟨_, hk⟩ | ⟨_, hk⟩
        · exact Or.inl hk
        · exact hk
      rcases houter with hE | hF | hT
      · rcases cast_kind_spec_Extend W hW i t s.is_signed hE with
          ⟨wi', wt', hiw, htw, hle, hpay⟩ | ⟨hiF, htF, _⟩
        · have hiint : (intWidth W i).isSome = true := by rw [hiw]; rfl
          rw [inner_preserves W hW s i hi hk1 hpay.symm hiint v hv]
          simp only [Option.some_bind]
          exact castVal_src_irrel W s i
            (src_intlike_of_inner W hW s i hk1 hiint) hiint t v
        · subst hiF; subst htF
          have hsF : s = .Float32 := by
            rcases hk1 with hk | ⟨b2, hk⟩
            · rcases cast_kind_spec_SameWidth W s .Float32 hk with
                ⟨wa, _, hw2⟩ | ⟨hx, _⟩ | ⟨_, hx⟩
              · simp [intWidth] at hw2
              · exact hx
              · exact absurd hx (by simp)
            · rcases cast_kind_spec_Extend W hW s .Float32 b2 hk with
                ⟨_, _, _, hw2, _, _⟩ | ⟨_, hx, _⟩
              · simp [intWidth] at hw2
              · exact absurd hx (by simp)
          subst hsF
          cases v with
          | f32 x => rfl
          | intv x => exact absurd hv (by simp [validVal])
          | f64 y => exact absurd hv (by simp [validVal])
      · obtain ⟨hpay, hiint, _⟩ := cast_kind_spec_FromPointer W i t s.is_signed hF
        rw [inner_preserves W hW s i hi hk1 hpay.symm hiint v hv]
        simp only [Option.some_bind]
        exact castVal_src_irrel W s i
          (src_intlike_of_inner W hW s i hk1 hiint) hiint t v
      · obtain ⟨hpay, hiint, _⟩ := cast_kind_spec_ToPointer W i t s.is_signed hT
        rw [inner_preserves W hW s i hi hk1 hpay.symm hiint v hv]
        simp only [Option.some_bind]
        exact castVal_src_irrel W s i
          (src_intlike_of_inner W hW s i hk1 hiint) hiint t v
    · rcases (armOuterNarrowPat_iff _).mp h3 with hSW | hTr
      · rcases cast_kind_spec_SameWidth W i t hSW with ⟨wa, hiw, htw⟩ | ⟨h1, h2⟩ | ⟨h1, h2⟩
        · cases hsint : intWidth W s with
          | some ws' =>
            rcases validVal_shape W s v (by rw [hsint]; rfl) hv with
              ⟨x, wa', hvx, hwa', hr⟩
            rw [hsint] at hwa'
            injection hwa' with he
            subst he
            subst hvx
            rw [castVal_intlike W s i ws' wa x hsint hiw]
            simp only [Option.some_bind]
            rw [castVal_intlike W i t wa wa _ hiw htw]
            rw [castVal_intlike W s t ws' wa x hsint htw]
            rw [normInt_normInt wa wa t.is_signed i.is_signed x (le_refl wa)]
          | none =>
            rw [castVal_float_src_int_none W s i v hsint (by rw [hiw]; rfl)]
            rw [castVal_float_src_int_none W s t v hsint (by rw [htw]; rfl)]
            rfl
        · subst h1; subst h2
          cases s with
          | Float32 =>
            cases v with
            | f32 x => rfl
            | intv x => exact absurd hv (by simp [validVal])
            | f64 y => exact absurd hv (by simp [validVal])
          | Float64 =>
            cases v with
            | f64 y => rfl
            | intv x => exact absurd hv (by simp [validVal])
            | f32 x => exact absurd hv (by simp [validVal])
          | Other => exact absurd hs (by simp [wfTy])
          | Int w b => cases v <;> rfl
          | Size b => cases v <;> rfl
          | Pointer => cases v <;> rfl
        · subst h1; subst h2
          cases s with
          | Float32 =>
            cases v with
            | f32 x => rfl
            | intv x => exact absurd hv (by simp [validVal])
            | f64 y => exact absurd hv (by simp [validVal])
          | Float64 =>
            cases v with
            | f64 y => rfl
            | intv x => exact absurd hv (by simp [validVal])
            | f32 x => exact absurd hv (by simp [validVal])
          | Other => exact absurd hs (by simp [wfTy])
          | Int w b => cases v <;> rfl
          | Size b => cases v <;> rfl
          | Pointer => cases v <;> rfl
      · rcases cast_kind_spec_Truncate W hW i t hTr with ⟨wi', wt', hiw, htw, hle⟩ | ⟨h1, h2⟩
        · cases hsint : intWidth W s with
          | some ws' =>
            rcases validVal_shape W s v (by rw [hsint]; rfl) hv with
              ⟨x, wa', hvx, hwa', hr⟩
            rw [hsint] at hwa'
            injection hwa' with he
            subst he
            subst hvx
            rw [castVal_intlike W s i ws' wi' x hsint hiw]
            simp only [Option.some_bind]
            rw [castVal_intlike W i t wi' wt' _ hiw htw]
            rw [castVal_intlike W s t ws' wt' x hsint htw]
            rw [normInt_normInt wt' wi' t.is_signed i.is_signed x hle]
          | none =>
            rw [castVal_float_src_int_none W s i v hsint (by rw [hiw]; rfl)]
            rw [castVal_float_src_int_none W s t v hsint (by rw [htw]; rfl)]
            rfl
        · subst h1; subst h2
          cases s with
          | Float32 =>
            cases v with
            | f32 x => rfl
            | intv x => exact absurd hv (by simp [validVal])
            | f64 y => exact absurd hv (by simp [validVal])
          | Float64 =>
            cases v with
            | f64 y => rfl
            | intv x => exact absurd hv (by simp [validVal])
            | f32 x => exact absurd hv (by simp [validVal])
          | Other => exact absurd hs (by simp [wfTy])
          | Int w b => cases v <;> rfl
          | Size b => cases v <;> rfl
          | Pointer => cases v <;> rfl

end Casts
